import Mathlib

/-!
Shallow embedding of the seoboost cache-warmer script (src/index.js) and
proofs about its warming pipeline: sitemap URL discovery, the retrying GET
helper, response classification, the purge decision, the batch scheduler,
and the per-run Apps Script logger.

Machine conventions: JavaScript values that flow into the log rows are
modelled by the inductive `JVal`; missing HTTP headers are `Option.none`;
the falsy-default idiom `x || "N/A"` is `orFalsy`.
-/

namespace CacheWarmer

/-- A JSON-like value: the shape of row cells and request bodies built by
the script. -/
inductive JVal where
  | null
  | str (s : String)
  | num (n : Int)
  | arr (xs : List JVal)
  | obj (fields : List (String × JVal))

/-- The JavaScript idiom `v || d` for string-valued expressions: `none`
(absent) and the empty string are falsy and yield the default `d`. -/
def orFalsy (v : Option String) (d : String) : String :=
  match v with
  | none => d
  | some s => if s = "" then d else s

/-! ## AppsScriptLogger (src/index.js lines 45-110) -/

/-- The named arguments of `AppsScriptLogger.log`, with the JavaScript
default values of the destructured parameter object. `responseMs` is
`some n` when the caller passed a number (the `typeof responseMs ===
"number"` test), `error` is the truthiness of the `error` argument. -/
structure LogParams where
  country : String := ""
  url : String := ""
  status : JVal := JVal.str ""
  cfCache : String := ""
  lsCache : String := ""
  cfRay : String := ""
  responseMs : Option Int := none
  error : Bool := false
  message : String := ""

/-- The mutable state of an `AppsScriptLogger` instance. -/
structure LoggerState where
  rows : List (List JVal)
  runId : String
  startedAt : String
  finishedAt : Option String
  sheetName : String

/-- The constructor `new AppsScriptLogger()`: empty row buffer, fresh run
id, start timestamp, `finishedAt = null`, per-run sheet name. -/
def initLogger (runId startedAt sheetName : String) : LoggerState :=
  { rows := [], runId := runId, startedAt := startedAt,
    finishedAt := none, sheetName := sheetName }

/-- `AppsScriptLogger.log`: pushes the 12-cell positional row
`[runId, startedAt, finishedAt, country, url, status, cfCache, lsCache,
cfRay, responseMs, error, message]` onto the buffer. -/
def LoggerState.logRow (st : LoggerState) (p : LogParams) : LoggerState :=
  { st with rows := st.rows ++
      [[JVal.str st.runId,
        JVal.str st.startedAt,
        (match st.finishedAt with | none => JVal.null | some f => JVal.str f),
        JVal.str p.country,
        JVal.str p.url,
        p.status,
        JVal.str p.cfCache,
        JVal.str p.lsCache,
        JVal.str p.cfRay,
        (match p.responseMs with | some n => JVal.num n | none => JVal.str ""),
        JVal.num (if p.error then 1 else 0),
        JVal.str p.message]] }

/-- `AppsScriptLogger.setFinished`: records the finish timestamp and
backfills cell index 2 of every buffered row (`r[2] = this.finishedAt`). -/
def LoggerState.setFinished (st : LoggerState) (now : String) : LoggerState :=
  { st with finishedAt := some now,
            rows := st.rows.map (fun r => r.set 2 (JVal.str now)) }

/-- One outgoing HTTP POST issued by the script. -/
structure PostCall where
  url : String
  body : JVal

/-- `AppsScriptLogger.flush`: with no configured `APPS_SCRIPT_URL` it only
warns and returns; with an empty buffer it returns; otherwise it POSTs one
body `{ sheetName: this.sheetName, rows: this.rows }` and clears the
buffer. Returns the POSTs issued together with the new state. -/
def LoggerState.flush (appsScriptUrl : Option String) (st : LoggerState) :
    List PostCall × LoggerState :=
  match appsScriptUrl with
  | none => ([], st)
  | some u =>
    if st.rows.length = 0 then ([], st)
    else
      ([{ url := u,
          body := JVal.obj
            [("sheetName", JVal.str st.sheetName),
             ("rows", JVal.arr (st.rows.map JVal.arr))] }],
       { st with rows := [] })

/-- Folding a sequence of `log` calls over an initial logger state: the
appends performed by all domain tasks of a run. -/
def runLog (init : LoggerState) (ps : List LogParams) : LoggerState :=
  ps.foldl LoggerState.logRow init

/-- The main IIFE's shutdown path (src/index.js lines 285-316): the domain
tasks append `entries`; the `finally` block then runs `setFinished` and
`flush` on both the resolved and the rejected path of `Promise.all`, so
the two match arms are deliberately identical. Returns the logger state
after the finalizer and the POSTs it issued. -/
def mainFinalize (runId startedAt sheetName : String) (entries : List LogParams)
    (domainOutcome : Except String Unit) (now : String)
    (appsScriptUrl : Option String) : LoggerState × List PostCall :=
  let st := runLog (initLogger runId startedAt sheetName) entries
  match domainOutcome with
  | Except.ok _ =>
    let fin := st.setFinished now
    let r := LoggerState.flush appsScriptUrl fin
    (r.2, r.1)
  | Except.error _ =>
    let fin := st.setFinished now
    let r := LoggerState.flush appsScriptUrl fin
    (r.2, r.1)

/-! ## Sitemap discovery (src/index.js lines 124-174, 290-298) -/

/-- The shape `xml2js` (with `explicitArray: false`) gives a repeated XML
element: absent, a single object, or an array of objects. `none` also
covers the caught fetch/parse failure, since both paths return `[]`. -/
inductive OneOrMany (α : Type) where
  | none
  | one (x : α)
  | many (xs : List α)

/-- A `<url>` entry of a `<urlset>`, keeping only its `loc` text (absent
`loc` is `Option.none`). -/
structure UrlEntry where
  loc : Option String

/-- A `<sitemap>` entry of a `<sitemapindex>`, keeping only its `loc`. -/
structure SitemapRef where
  loc : Option String

/-- The truthiness test of `.filter(Boolean)` on `entry.loc`: keeps only
present, non-empty strings. -/
def truthyLoc (l : Option String) : Option String :=
  match l with
  | none => Option.none
  | some s => if s = "" then Option.none else some s

/-- `fetchUrlsFromSitemap` after the fetch+parse: takes the value of
`result?.urlset?.url`, returns `[]` when it is missing, wraps a single
object into a one-element array (`Array.isArray` test), then
`urls.map((entry) => entry.loc).filter(Boolean)`. -/
def fetchUrlsFromSitemap (urlList : OneOrMany UrlEntry) : List String :=
  match urlList with
  | OneOrMany.none => []
  | OneOrMany.one x => List.filterMap truthyLoc [x.loc]
  | OneOrMany.many xs => List.filterMap truthyLoc (xs.map UrlEntry.loc)

/-- `fetchIndexSitemaps` after the fetch+parse: same normalization applied
to `result?.sitemapindex?.sitemap`. -/
def fetchIndexSitemaps (sitemapList : OneOrMany SitemapRef) : List String :=
  match sitemapList with
  | OneOrMany.none => []
  | OneOrMany.one x => List.filterMap truthyLoc [x.loc]
  | OneOrMany.many xs => List.filterMap truthyLoc (xs.map SitemapRef.loc)

/-- The `urls` construction of the main IIFE: the per-child-sitemap lists
are flattened and filtered for truthiness
(`urlArrays.flat().filter(Boolean)`). -/
def discoverUrls (childDocs : List (OneOrMany UrlEntry)) : List String :=
  ((childDocs.map fetchUrlsFromSitemap).flatten).filter (fun s => s ≠ "")

/-! ## retryableGet (src/index.js lines 177-193) -/

/-- What `warmUrls` reads off a thrown fetch error: whether
`axios.isAxiosError(err)` holds, the value of `err?.code || ""`, and
`err?.message`. -/
structure AttemptError where
  isAxiosError : Bool
  code : String
  message : Option String
deriving DecidableEq, Repr

/-- The retry guard of `retryableGet`: an axios error whose code is one of
ECONNABORTED, ECONNRESET, ETIMEDOUT. -/
def retryableCode (e : AttemptError) : Bool :=
  e.isAxiosError &&
    (e.code = "ECONNABORTED" || e.code = "ECONNRESET" || e.code = "ETIMEDOUT")

/-- Observable events of one `retryableGet` call: the i-th `axios.get`
attempt, and a `sleep(ms)` delay. -/
inductive RGEvent where
  | attempt (i : Nat)
  | slept (ms : Nat)
deriving DecidableEq, Repr

/-- How a `retryableGet` call ends: a returned response, or a thrown
value — `throw lastError` throws `null` (`Option.none`) when the loop
body never ran. -/
inductive RGResult (ρ : Type) where
  | ok (r : ρ)
  | threw (e : Option AttemptError)
deriving DecidableEq

/-- The `for (let i = 0; i < retries; i++)` loop of `retryableGet`.
`attempts i` is the outcome of the i-th `axios.get`; `fuel` is the number
of remaining iterations (`retries - i`), so `fuel = 0` is the loop exit
that falls through to `throw lastError`. A non-retryable error breaks and
throws; a retryable one sleeps 2000 ms and continues. -/
def retryableGetGo {ρ : Type} (attempts : Nat → Except AttemptError ρ)
    (i : Nat) (lastError : Option AttemptError) (fuel : Nat) :
    List RGEvent × RGResult ρ :=
  match fuel with
  | 0 => ([], RGResult.threw lastError)
  | f + 1 =>
    match attempts i with
    | Except.ok r => ([RGEvent.attempt i], RGResult.ok r)
    | Except.error e =>
      if retryableCode e then
        let rest := retryableGetGo attempts (i + 1) (some e) f
        (RGEvent.attempt i :: RGEvent.slept 2000 :: rest.1, rest.2)
      else
        ([RGEvent.attempt i], RGResult.threw (some e))

/-- `retryableGet(url, cfg, retries)`: runs the attempt loop starting at
`i = 0` with `lastError = null`. `retries` is an integer; the loop runs
`max retries 0` times, so `Int.toNat` is the faithful iteration count. -/
def retryableGet {ρ : Type} (attempts : Nat → Except AttemptError ρ)
    (retries : Int) : List RGEvent × RGResult ρ :=
  retryableGetGo attempts 0 Option.none retries.toNat

/-! ## warmUrls (src/index.js lines 218-282) -/

/-- The response headers `warmUrls` reads; each is `Option.none` when the
header is absent from the response. -/
structure RespHeaders where
  cfCacheStatus : Option String
  xLitespeedCache : Option String
  cfRay : Option String

/-- An HTTP response as consumed by `warmUrls`: status code and headers.
Axios does not throw on 4xx/5xx here, so any status can appear. -/
structure HttpResponse where
  status : Int
  headers : RespHeaders

/-- What one URL's `retryableGet` call produced, together with the
measured elapsed time `Date.now() - t0`: a response, or a thrown error
from which `err?.message` is read. -/
inductive FetchResult where
  | ok (res : HttpResponse) (elapsedMs : Int)
  | err (message : Option String) (elapsedMs : Int)

/-- `String.prototype.toLowerCase` on the ASCII strings cache statuses
use: lower-cases every character. -/
def jsToLower (s : String) : String :=
  String.mk (s.data.map Char.toLower)

/-- `String.prototype.split` with a one-character separator, on the
character list of the string: splitting at every occurrence of `sep`,
keeping empty segments (so "A-" splits into ["A", ""]). -/
def splitChars (sep : Char) : List Char → List (List Char)
  | [] => [[]]
  | c :: rest =>
    let r := splitChars sep rest
    if c = sep then [] :: r
    else
      match r with
      | [] => [[c]]
      | h :: t => (c :: h) :: t

/-- The edge code of the console line:
`cfRay.includes("-") ? cfRay.split("-")[1] : "N/A"`. Printed only; it is
not passed to `logger.log`. -/
def cfEdgeOf (cfRay : String) : String :=
  if cfRay.data.contains '-' then
    (((splitChars '-' cfRay.data).get? 1).map String.mk).getD "N/A"
  else "N/A"

/-- The body of the per-URL task inside a batch of `warmUrls`: on a
response, read the three cache headers with the `|| "N/A"` default, log a
success row, and call `purgeCloudflareCache(url)` when
`String(lsCache).toLowerCase() !== "hit"`; on a thrown error (the
`catch`), log a failure row with `err?.message || "request failed"` and
make no purge call. Returns the `log` arguments and the list of purge
calls (by purged URL). -/
def warmOne (country url : String) (r : FetchResult) : LogParams × List String :=
  match r with
  | FetchResult.ok res dt =>
    let cfCache := orFalsy res.headers.cfCacheStatus "N/A"
    let lsCache := orFalsy res.headers.xLitespeedCache "N/A"
    let cfRay := orFalsy res.headers.cfRay "N/A"
    ({ country := country, url := url, status := JVal.num res.status,
       cfCache := cfCache, lsCache := lsCache, cfRay := cfRay,
       responseMs := some dt, error := false, message := "" },
     if jsToLower lsCache ≠ "hit" then [url] else [])
  | FetchResult.err msg dt =>
    ({ country := country, url := url, responseMs := some dt,
       error := true, message := orFalsy msg "request failed" },
     [])

/-- One batch of `warmUrls`: every URL of the batch runs the per-URL task
(each wrapped in its own try/catch, so every URL yields exactly one row
and no error escapes `Promise.all`). Returns the rows in list order and
the purge calls. -/
def warmBatch (country : String) (batch : List (String × FetchResult)) :
    List LogParams × List String :=
  (batch.map (fun p => (warmOne country p.1 p.2).1),
   (batch.map (fun p => (warmOne country p.1 p.2).2)).flatten)

/-- Top-level keys of a JSON object, in order; used to inspect the flush
body. -/
def bodyKeys (v : JVal) : List String :=
  match v with
  | JVal.obj fields => fields.map Prod.fst
  | _ => []

/-- The batch partition of `warmUrls`:
`Array.from({length: Math.ceil(urls.length / batchSize)}, (_, i) =>
urls.slice(i * batchSize, i * batchSize + batchSize))`. For natural
lengths and `batchSize ≥ 1`, `Math.ceil(n / b)` is
`(n + b - 1) / b` in integer arithmetic. -/
def warmBatches {α : Type} (urls : List α) (batchSize : Nat) : List (List α) :=
  (List.range ((urls.length + batchSize - 1) / batchSize)).map
    (fun i => (urls.drop (i * batchSize)).take batchSize)

/-!
## Claim theorems
-/

/-- C2: for every successfully fetched URL, a purge call is made if and
only if the response's cache status (the `x-litespeed-cache` value the
code tests, after its `|| "N/A"` default, compared case-insensitively) is
not "HIT"; a missing status header triggers a purge, and a status whose
lowercase form is "hit" (any letter case) triggers none. -/
theorem c2_purge_policy (country url : String) (res : HttpResponse) (dt : Int) :
    ((warmOne country url (FetchResult.ok res dt)).2 ≠ [] ↔
      ¬ jsToLower (orFalsy res.headers.xLitespeedCache "N/A") = "hit") ∧
    (res.headers.xLitespeedCache = Option.none →
      (warmOne country url (FetchResult.ok res dt)).2 = [url]) ∧
    (∀ s : String, res.headers.xLitespeedCache = some s → jsToLower s = "hit" →
      (warmOne country url (FetchResult.ok res dt)).2 = []) := by
  refine ⟨?_, ?_, ?_⟩
  · by_cases h : jsToLower (orFalsy res.headers.xLitespeedCache "N/A") = "hit" <;>
      simp [warmOne, h]
  · intro h
    have hna : (jsToLower "N/A" = "hit") = False := by
      simp only [eq_iff_iff, iff_false]
      decide
    simp [warmOne, h, orFalsy, hna]
  · intro s hs hhit
    have hne : ¬ s = "" := by
      intro h0
      rw [h0] at hhit
      exact absurd hhit (by decide)
    simp [warmOne, hs, orFalsy, hne, hhit]

/-- C2 witness: with the header missing a purge call for the URL is made,
and with the header "HiT" none is. -/
theorem c2_purge_policy_witness :
    (warmOne "id" "https://seoboost.co.id/a"
      (FetchResult.ok ⟨200, ⟨some "HIT", Option.none, some "ABCD-SIN"⟩⟩ 5)).2 =
      ["https://seoboost.co.id/a"] ∧
    (warmOne "id" "https://seoboost.co.id/a"
      (FetchResult.ok ⟨200, ⟨some "HIT", some "HiT", some "ABCD-SIN"⟩⟩ 5)).2 = [] := by
  constructor
  · exact (c2_purge_policy "id" "https://seoboost.co.id/a"
      ⟨200, ⟨some "HIT", Option.none, some "ABCD-SIN"⟩⟩ 5).2.1 rfl
  · exact (c2_purge_policy "id" "https://seoboost.co.id/a"
      ⟨200, ⟨some "HIT", some "HiT", some "ABCD-SIN"⟩⟩ 5).2.2 "HiT" rfl (by decide)

/-- C5 counterexample: for a response carrying the ray identifier
"ABCD-SIN" (present and non-sentinel, parsed edge code "SIN"), the Outcome
Row's region field is the configured region code "id", not the parsed edge
code, refuting the claim that the resolved region_tag is recorded. -/
theorem c5_region_tag_refuted :
    (warmOne "id" "https://seoboost.co.id/a"
      (FetchResult.ok ⟨200, ⟨some "HIT", some "hit", some "ABCD-SIN"⟩⟩ 5)).1.country
      = "id" ∧
    cfEdgeOf "ABCD-SIN" = "SIN" ∧
    ¬ (warmOne "id" "https://seoboost.co.id/a"
      (FetchResult.ok ⟨200, ⟨some "HIT", some "hit", some "ABCD-SIN"⟩⟩ 5)).1.country
      = "SIN" := by
  refine ⟨rfl, by decide, ?_⟩
  intro h
  exact absurd h (by decide)

/-- C5 amended: the Outcome Row always records the Domain Target's
configured region code in its region (country) field — in particular when
the ray identifier is absent — while the raw ray value (defaulted to
"N/A") is recorded in the cf_ray field; the edge code parsed from the ray
for console output resolves "ABCD-SIN" to "SIN" but is never written to
the row. -/
theorem c5_region_recorded (country url : String) (r : FetchResult) :
    (warmOne country url r).1.country = country ∧
    (∀ (res : HttpResponse) (dt : Int),
      (warmOne country url (FetchResult.ok res dt)).1.cfRay =
        orFalsy res.headers.cfRay "N/A") ∧
    cfEdgeOf "ABCD-SIN" = "SIN" := by
  refine ⟨?_, ?_, by decide⟩
  · cases r <;> rfl
  · intro res dt
    rfl

/-- C9: with a retry count of zero or any non-positive value, the attempt
loop of `retryableGet` never runs: no request is attempted, no backoff
sleep happens, and the function throws the null (`Option.none`) initial
value of its `lastError` variable. -/
theorem c9_nonpositive_retries {ρ : Type} (attempts : Nat → Except AttemptError ρ)
    (retries : Int) (h : retries ≤ 0) :
    retryableGet attempts retries = ([], RGResult.threw Option.none) := by
  unfold retryableGet
  rw [Int.toNat_of_nonpos h]
  rfl

/-- C9 witness: a concrete call with retries = 0 performs no attempt and
throws null. -/
theorem c9_nonpositive_retries_witness :
    retryableGet (fun _ => (Except.ok 200 : Except AttemptError Nat)) 0 =
      ([], RGResult.threw Option.none) :=
  c9_nonpositive_retries (fun _ => Except.ok 200) 0 (by decide)

/-- C10: a urlset or sitemapindex with exactly one entry, which xml2js
(with explicitArray false) yields as a single object rather than an array,
is normalized to a one-element list, so its one URL is contributed instead
of being dropped or failing. -/
theorem c10_single_entry_normalized (s : String) (h : ¬ s = "") :
    fetchUrlsFromSitemap (OneOrMany.one ⟨some s⟩) = [s] ∧
    fetchIndexSitemaps (OneOrMany.one ⟨some s⟩) = [s] := by
  constructor <;> simp [fetchUrlsFromSitemap, fetchIndexSitemaps, truthyLoc, h]

/-- C10 witness: a single-entry urlset and a single-entry sitemap index
each contribute their one URL. -/
theorem c10_single_entry_normalized_witness :
    fetchUrlsFromSitemap (OneOrMany.one ⟨some "https://seoboost.co.id/p"⟩) =
      ["https://seoboost.co.id/p"] ∧
    fetchIndexSitemaps (OneOrMany.one ⟨some "https://seoboost.co.id/p"⟩) =
      ["https://seoboost.co.id/p"] :=
  c10_single_entry_normalized "https://seoboost.co.id/p" (by decide)

/-- C8 counterexample: flushing a run with one logged row to a configured
sink issues a POST whose body has exactly the top-level keys sheetName and
rows — there is no headers field carrying column names, refuting that part
of the claim. -/
theorem c8_headers_field_refuted :
    ((LoggerState.flush (some "https://script.example/exec")
        (((initLogger "run1" "2026-01-01T00:00:00.000Z"
            "2026-01-01_08-00-00_WITA").logRow {}).setFinished
          "2026-01-01T00:01:00.000Z")).1.map
      (fun p => bodyKeys p.body)) = [["sheetName", "rows"]] ∧
    ¬ "headers" ∈ (["sheetName", "rows"] : List String) := by
  constructor
  · rfl
  · decide

/-- C8 amended: with a configured sink and a nonempty row buffer, flush
issues exactly one POST to the sink whose JSON body carries the run-scoped
grouping name under sheetName and the ordered array of Outcome Row field
arrays under rows, and nothing else — in particular no headers field, the
column order being implicit in the fixed 12 row positions; with no sink
configured, flush issues no POST and returns normally, leaving the state
unchanged. -/
theorem c8_flush_body (st : LoggerState) (u : String) (h : ¬ st.rows = []) :
    (LoggerState.flush (some u) st).1 =
      [{ url := u,
         body := JVal.obj
           [("sheetName", JVal.str st.sheetName),
            ("rows", JVal.arr (st.rows.map JVal.arr))] }] ∧
    LoggerState.flush Option.none st = ([], st) := by
  constructor
  · have hlen : ¬ st.rows.length = 0 := by
      simpa [List.length_eq_zero] using h
    simp [LoggerState.flush, hlen]
  · rfl

/-- C8 witness: a concrete one-row state yields the single expected POST,
and the unconfigured flush is the identity. -/
theorem c8_flush_body_witness :
    (LoggerState.flush (some "https://script.example/exec")
        { rows := [[JVal.str "run1"]], runId := "run1",
          startedAt := "s", finishedAt := some "f", sheetName := "tab" }).1 =
      [{ url := "https://script.example/exec",
         body := JVal.obj
           [("sheetName", JVal.str "tab"),
            ("rows", JVal.arr [JVal.arr [JVal.str "run1"]])] }] ∧
    LoggerState.flush Option.none
        { rows := [[JVal.str "run1"]], runId := "run1",
          startedAt := "s", finishedAt := some "f", sheetName := "tab" } =
      ([], { rows := [[JVal.str "run1"]], runId := "run1",
             startedAt := "s", finishedAt := some "f", sheetName := "tab" }) :=
  c8_flush_body
    { rows := [[JVal.str "run1"]], runId := "run1",
      startedAt := "s", finishedAt := some "f", sheetName := "tab" }
    "https://script.example/exec" (by simp)

/-- C1 counterexample: a sitemap listing with a duplicated same-host URL
and a third-party URL is handed to the warmer unchanged — the same-host
URL appears twice, not once, and the cross-host URL is present, refuting
both the deduplication and the host-filtering parts of the claim. -/
theorem c1_dedup_hostfilter_refuted :
    discoverUrls
        [OneOrMany.many
          [⟨some "https://seoboost.co.id/a"⟩,
           ⟨some "https://seoboost.co.id/a"⟩,
           ⟨some "https://other.test/c"⟩]] =
      ["https://seoboost.co.id/a", "https://seoboost.co.id/a",
       "https://other.test/c"] ∧
    (discoverUrls
        [OneOrMany.many
          [⟨some "https://seoboost.co.id/a"⟩,
           ⟨some "https://seoboost.co.id/a"⟩,
           ⟨some "https://other.test/c"⟩]]).count "https://seoboost.co.id/a"
      = 2 ∧
    "https://other.test/c" ∈
      discoverUrls
        [OneOrMany.many
          [⟨some "https://seoboost.co.id/a"⟩,
           ⟨some "https://seoboost.co.id/a"⟩,
           ⟨some "https://other.test/c"⟩]] := by
  refine ⟨rfl, ?_, ?_⟩ <;> decide

/-- Locs produced by a child sitemap are never the empty string: the
source already applied the truthiness filter. -/
theorem fetchUrlsFromSitemap_ne_empty (doc : OneOrMany UrlEntry) :
    ∀ s ∈ fetchUrlsFromSitemap doc, ¬ s = "" := by
  intro s hs
  have key : ∀ (ls : List (Option String)), s ∈ List.filterMap truthyLoc ls → ¬ s = "" := by
    intro ls hmem
    rcases List.mem_filterMap.mp hmem with ⟨l, _, hl⟩
    cases l with
    | none => simp [truthyLoc] at hl
    | some t =>
      by_cases ht : t = "" <;> simp [truthyLoc, ht] at hl
      intro h0
      rw [h0] at hl
      exact ht hl
  cases doc with
  | none => simp [fetchUrlsFromSitemap] at hs
  | one x => exact key [x.loc] hs
  | many xs => exact key (xs.map UrlEntry.loc) hs

/-- C1 amended: the URL list Discovery hands to the warmer is exactly the
concatenation, in order, of the non-empty loc entries of each child
sitemap — order and multiplicity preserved, no deduplication and no
host filtering, so duplicate and cross-host loc entries are passed along
as-is (the final filter(Boolean) removes nothing, every loc already being
non-empty). -/
theorem c1_discovery_concatenation (childDocs : List (OneOrMany UrlEntry)) :
    discoverUrls childDocs = (childDocs.map fetchUrlsFromSitemap).flatten := by
  unfold discoverUrls
  rw [List.filter_eq_self]
  intro s hs
  rcases List.mem_flatten.mp hs with ⟨l, hl, hsl⟩
  rcases List.mem_map.mp hl with ⟨doc, _, hdoc⟩
  have := fetchUrlsFromSitemap_ne_empty doc s (hdoc ▸ hsl)
  simpa using this

/-- Shape invariant of a buffered row: cell 0 is the run id, cell 1 the
start timestamp, and the row is long enough for the finish-timestamp
backfill at cell 2. -/
def rowInv (runId startedAt : String) (r : List JVal) : Prop :=
  r[0]? = some (JVal.str runId) ∧ r[1]? = some (JVal.str startedAt) ∧ 2 < r.length

/-- Every row appended by a sequence of log calls satisfies the row
invariant for the logger's own run id and start timestamp. -/
theorem runLog_inv (ps : List LogParams) (st : LoggerState)
    (h : ∀ r ∈ st.rows, rowInv st.runId st.startedAt r) :
    ∀ r ∈ (runLog st ps).rows, rowInv st.runId st.startedAt r := by
  induction ps generalizing st with
  | nil => exact h
  | cons p ps ih =>
    have hstep : ∀ r ∈ (st.logRow p).rows, rowInv st.runId st.startedAt r := by
      intro r hr
      rcases List.mem_append.mp hr with h1 | h1
      · exact h r h1
      · rw [List.mem_singleton.mp h1]
        exact ⟨rfl, rfl, by simp⟩
    exact ih (st.logRow p) hstep

/-- Each log call appends exactly one row. -/
theorem runLog_rows_length (ps : List LogParams) (st : LoggerState) :
    (runLog st ps).rows.length = st.rows.length + ps.length := by
  induction ps generalizing st with
  | nil => simp [runLog]
  | cons p ps ih =>
    have hfold : runLog st (p :: ps) = runLog (st.logRow p) ps := rfl
    rw [hfold, ih]
    simp [LoggerState.logRow]
    omega

/-- C3: every Outcome Row of a run carries the same run identifier (cell
0) and start timestamp (cell 1), and after finalization also the same
finish timestamp (cell 2); the finalizer produces identical state and
POSTs whether the domain tasks resolved or rejected (the finally block
runs either way), and the run log is flushed as at most one POST — exactly
one when the sink is configured and at least one row was logged. -/
theorem c3_run_invariants (runId startedAt sheetName now msg : String)
    (entries : List LogParams) (appsScriptUrl : Option String) :
    (∀ r ∈ (runLog (initLogger runId startedAt sheetName) entries).rows,
        r[0]? = some (JVal.str runId) ∧ r[1]? = some (JVal.str startedAt)) ∧
    (∀ r ∈ ((runLog (initLogger runId startedAt sheetName) entries).setFinished
        now).rows,
        r[0]? = some (JVal.str runId) ∧ r[1]? = some (JVal.str startedAt) ∧
          r[2]? = some (JVal.str now)) ∧
    (mainFinalize runId startedAt sheetName entries (Except.error msg) now
        appsScriptUrl =
      mainFinalize runId startedAt sheetName entries (Except.ok ()) now
        appsScriptUrl) ∧
    ((mainFinalize runId startedAt sheetName entries (Except.ok ()) now
        appsScriptUrl).2.length ≤ 1) ∧
    (∀ u, appsScriptUrl = some u → ¬ entries = [] →
      (mainFinalize runId startedAt sheetName entries (Except.ok ()) now
        appsScriptUrl).2.length = 1) := by
  have hinv := runLog_inv entries (initLogger runId startedAt sheetName)
    (by intro r hr; simp [initLogger] at hr)
  refine ⟨?_, ?_, rfl, ?_, ?_⟩
  · intro r hr
    exact ⟨(hinv r hr).1, (hinv r hr).2.1⟩
  · intro r hr
    rcases List.mem_map.mp hr with ⟨r0, hr0, hset⟩
    rcases hinv r0 hr0 with ⟨h0, h1, h2⟩
    refine hset ▸ ⟨?_, ?_, ?_⟩
    · rw [List.getElem?_set_ne (by decide)]
      exact h0
    · rw [List.getElem?_set_ne (by decide)]
      exact h1
    · exact List.getElem?_set_eq_of_lt _ h2
  · cases appsScriptUrl with
    | none => simp [mainFinalize, LoggerState.flush]
    | some u =>
      by_cases hz :
          ((runLog (initLogger runId startedAt sheetName) entries).setFinished
            now).rows.length = 0 <;>
        simp [mainFinalize, LoggerState.flush, hz]
  · intro u hu hne
    subst hu
    have hlen :
        ((runLog (initLogger runId startedAt sheetName) entries).setFinished
          now).rows.length = entries.length := by
      simp [LoggerState.setFinished, runLog_rows_length, initLogger]
    have hne0 :
        ¬ ((runLog (initLogger runId startedAt sheetName) entries).setFinished
          now).rows.length = 0 := by
      rw [hlen]
      simpa [List.length_eq_zero] using hne
    simp [mainFinalize, LoggerState.flush, hne0]

/-- C3 witness: a run that logs one row and whose domain task rejects still
produces the same single POST as a resolving run, and its finalized row
carries the shared finish timestamp. -/
theorem c3_run_invariants_witness :
    (mainFinalize "run1" "2026-01-01T00:00:00.000Z" "tab" [{}]
        (Except.error "boom") "2026-01-01T00:01:00.000Z"
        (some "https://script.example/exec")) =
      (mainFinalize "run1" "2026-01-01T00:00:00.000Z" "tab" [{}]
        (Except.ok ()) "2026-01-01T00:01:00.000Z"
        (some "https://script.example/exec")) ∧
    (mainFinalize "run1" "2026-01-01T00:00:00.000Z" "tab" [{}]
        (Except.ok ()) "2026-01-01T00:01:00.000Z"
        (some "https://script.example/exec")).2.length = 1 := by
  have h := c3_run_invariants "run1" "2026-01-01T00:00:00.000Z" "tab"
    "2026-01-01T00:01:00.000Z" "boom" [{}] (some "https://script.example/exec")
  exact ⟨h.2.2.1, h.2.2.2.2 "https://script.example/exec" rfl (by simp)⟩

/-- C7: inside a batch, a URL whose fetch failed (after retry exhaustion)
yields exactly one failure row — error flag set, the thrown error's
message (or the "request failed" default) recorded, classification fields
left at their defaults — and contributes no purge call; every other URL of
the batch still gets exactly the row its own outcome determines, and the
batch always yields one row per URL (the per-URL catch keeps any error
from escaping the batch). -/
theorem c7_batch_isolation (country : String)
    (batch : List (String × FetchResult)) (j : Nat) (url : String)
    (m : Option String) (dt : Int)
    (h : batch[j]? = some (url, FetchResult.err m dt)) :
    (warmBatch country batch).1.length = batch.length ∧
    (warmBatch country batch).1[j]? = some
      { country := country, url := url, responseMs := some dt,
        error := true, message := orFalsy m "request failed" } ∧
    (warmOne country url (FetchResult.err m dt)).2 = [] ∧
    (∀ i, ¬ i = j → (warmBatch country batch).1[i]? =
      (batch[i]?).map (fun p => (warmOne country p.1 p.2).1)) := by
  refine ⟨by simp [warmBatch], ?_, rfl, ?_⟩
  · rw [warmBatch, List.getElem?_map, h]
    rfl
  · intro i _
    rw [warmBatch, List.getElem?_map]

/-- C7 witness: in a two-URL batch whose second fetch failed, the first
URL's success row and purge decision are unaffected, and the failed URL
yields its single failure row and no purge. -/
theorem c7_batch_isolation_witness :
    (warmBatch "id"
        [("https://seoboost.co.id/a",
          FetchResult.ok ⟨200, ⟨some "HIT", some "miss", some "ABCD-SIN"⟩⟩ 40),
         ("https://seoboost.co.id/b",
          FetchResult.err (some "timeout of 15000ms exceeded") 15000)]).1.length
      = 2 ∧
    (warmBatch "id"
        [("https://seoboost.co.id/a",
          FetchResult.ok ⟨200, ⟨some "HIT", some "miss", some "ABCD-SIN"⟩⟩ 40),
         ("https://seoboost.co.id/b",
          FetchResult.err (some "timeout of 15000ms exceeded") 15000)]).1[1]?
      = some { country := "id", url := "https://seoboost.co.id/b",
               responseMs := some 15000, error := true,
               message := "timeout of 15000ms exceeded" } ∧
    (warmOne "id" "https://seoboost.co.id/b"
      (FetchResult.err (some "timeout of 15000ms exceeded") 15000)).2 = [] ∧
    (warmBatch "id"
        [("https://seoboost.co.id/a",
          FetchResult.ok ⟨200, ⟨some "HIT", some "miss", some "ABCD-SIN"⟩⟩ 40),
         ("https://seoboost.co.id/b",
          FetchResult.err (some "timeout of 15000ms exceeded") 15000)]).1[0]?
      = some (warmOne "id" "https://seoboost.co.id/a"
          (FetchResult.ok ⟨200, ⟨some "HIT", some "miss", some "ABCD-SIN"⟩⟩ 40)).1 := by
  have h := c7_batch_isolation "id"
    [("https://seoboost.co.id/a",
      FetchResult.ok ⟨200, ⟨some "HIT", some "miss", some "ABCD-SIN"⟩⟩ 40),
     ("https://seoboost.co.id/b",
      FetchResult.err (some "timeout of 15000ms exceeded") 15000)]
    1 "https://seoboost.co.id/b" (some "timeout of 15000ms exceeded") 15000 rfl
  exact ⟨h.1, h.2.1, h.2.2.1, (h.2.2.2 0 (by decide)).trans rfl⟩

/-- The empty URL list yields no batches. -/
theorem warmBatches_nil (α : Type) (b : Nat) :
    warmBatches ([] : List α) b = [] := by
  unfold warmBatches
  have h0 : (List.length ([] : List α) + b - 1) / b = 0 := by
    rcases Nat.eq_zero_or_pos b with h | h
    · simp [h]
    · simp only [List.length_nil, Nat.zero_add]
      exact Nat.div_eq_of_lt (by omega)
  rw [h0]
  rfl

/-- Recursive characterization of the slice-based batch construction: for
a nonempty list, the first batch is the first `b` elements and the rest
are the batches of the remainder. -/
theorem warmBatches_cons {α : Type} {l : List α} {b : Nat} (hb : 1 ≤ b)
    (hl : ¬ l = []) :
    warmBatches l b = l.take b :: warmBatches (l.drop b) b := by
  have hn : 1 ≤ l.length := List.length_pos.mpr hl
  unfold warmBatches
  have h1 : (l.length + b - 1) / b = (l.length - 1) / b + 1 := by
    have he : l.length + b - 1 = (l.length - 1) + b := by omega
    rw [he, Nat.add_div_right _ (by omega : 0 < b)]
  have h2 : ((l.drop b).length + b - 1) / b = (l.length - 1) / b := by
    rw [List.length_drop]
    rcases le_or_lt b l.length with h | h
    · congr 1
      omega
    · have e1 : l.length - b = 0 := by omega
      rw [e1, Nat.zero_add, Nat.div_eq_of_lt (by omega),
        Nat.div_eq_of_lt (by omega)]
  rw [h1, h2, List.range_succ_eq_map, List.map_cons, List.map_map]
  congr 1
  · simp
  · refine List.map_congr_left ?_
    intro i _
    simp only [Function.comp_apply, List.drop_drop]
    have hs : Nat.succ i * b = b + i * b := by
      rw [Nat.succ_mul, Nat.add_comm]
    rw [hs]

/-- The batches of a list concatenate back to the list. -/
theorem warmBatches_flatten_of_le {α : Type} {b : Nat} (hb : 1 ≤ b) :
    ∀ (n : Nat) (l : List α), l.length ≤ n → (warmBatches l b).flatten = l := by
  intro n
  induction n with
  | zero =>
    intro l h
    have : l = [] := List.eq_nil_of_length_eq_zero (by omega)
    rw [this, warmBatches_nil]
    rfl
  | succ n ih =>
    intro l h
    by_cases hl : l = []
    · rw [hl, warmBatches_nil]
      rfl
    · rw [warmBatches_cons hb hl, List.flatten_cons,
        ih (l.drop b) (by rw [List.length_drop]; have := List.length_pos.mpr hl; omega),
        List.take_append_drop]

/-- C6: for batchSize ≥ 1 the scheduler partitions the URL list into
exactly ceil(count / batchSize) consecutive batches whose concatenation is
the input list (so original order is preserved), and every batch before
the last has exactly batchSize elements. -/
theorem c6_batch_partition (α : Type) (l : List α) (b : Nat) (hb : 1 ≤ b) :
    (warmBatches l b).length = (l.length + b - 1) / b ∧
    (warmBatches l b).flatten = l ∧
    (∀ i, i + 1 < (warmBatches l b).length →
      ((warmBatches l b)[i]?).map List.length = some b) := by
  refine ⟨by simp [warmBatches], warmBatches_flatten_of_le hb l.length l le_rfl, ?_⟩
  intro i hi
  have hm : (warmBatches l b).length = (l.length + b - 1) / b := by
    simp [warmBatches]
  rw [hm] at hi
  have hi2 : i + 2 ≤ (l.length + b - 1) / b := by omega
  have h2 : (i + 2) * b ≤ l.length + b - 1 :=
    (Nat.le_div_iff_mul_le (by omega : 0 < b)).mp hi2
  have hmul : (i + 2) * b = i * b + 2 * b := by ring
  rw [hmul] at h2
  have h4 : i * b + b ≤ l.length := by omega
  have hget : (warmBatches l b)[i]? =
      some ((l.drop (i * b)).take b) := by
    unfold warmBatches
    rw [List.getElem?_map, List.getElem?_range (by omega)]
    rfl
  rw [hget, Option.map_some']
  congr 1
  rw [List.length_take, List.length_drop]
  omega

/-- C6 witness: a five-URL list with batchSize 2 yields three ordered
batches of sizes 2, 2, 1. -/
theorem c6_batch_partition_witness :
    (warmBatches ["a", "b", "c", "d", "e"] 2).length = 3 ∧
    (warmBatches ["a", "b", "c", "d", "e"] 2).flatten =
      ["a", "b", "c", "d", "e"] ∧
    ((warmBatches ["a", "b", "c", "d", "e"] 2)[0]?).map List.length = some 2 := by
  have h := c6_batch_partition String ["a", "b", "c", "d", "e"] 2 (by decide)
  exact ⟨h.1, h.2.1, h.2.2 0 (by decide)⟩

/-- Trace of the attempt loop when the first `k` attempts (from index `i`)
throw retryable errors and attempt `i + k` returns: each failed attempt is
followed by the 2000 ms sleep, and the loop returns the success of attempt
`i + k` as long as the loop bound allows it (`k < fuel`). -/
theorem retryableGetGo_success {ρ : Type} (attempts : Nat → Except AttemptError ρ)
    (r : ρ) :
    ∀ (k i fuel : Nat) (lastE : Option AttemptError), k < fuel →
    (∀ j, j < k → ∃ e, attempts (i + j) = Except.error e ∧ retryableCode e = true) →
    attempts (i + k) = Except.ok r →
    retryableGetGo attempts i lastE fuel =
      ((List.range' i k).flatMap
          (fun j => [RGEvent.attempt j, RGEvent.slept 2000])
        ++ [RGEvent.attempt (i + k)], RGResult.ok r) := by
  intro k
  induction k with
  | zero =>
    intro i fuel lastE hfuel _ hok
    obtain ⟨f, rfl⟩ : ∃ f, fuel = f + 1 := ⟨fuel - 1, by omega⟩
    rw [Nat.add_zero] at hok
    simp [retryableGetGo, hok]
  | succ k ih =>
    intro i fuel lastE hfuel hj hok
    obtain ⟨f, rfl⟩ : ∃ f, fuel = f + 1 := ⟨fuel - 1, by omega⟩
    obtain ⟨e, he, hret⟩ := hj 0 (by omega)
    rw [Nat.add_zero] at he
    have hrest := ih (i + 1) f (some e) (by omega)
      (by
        intro j hjk
        have := hj (j + 1) (by omega)
        rwa [show i + (j + 1) = i + 1 + j by omega] at this)
      (by rwa [show i + 1 + k = i + (k + 1) by omega])
    rw [List.range'_succ]
    simp only [retryableGetGo, he, hret, if_pos, hrest, List.flatMap_cons]
    rw [show i + (k + 1) = i + 1 + k by omega]
    simp

/-- Trace of the attempt loop when every attempt it can make throws a
retryable error: the loop performs exactly `fuel` attempts, sleeping
2000 ms after each, and finally throws the error of the last attempt
(or the incoming `lastError` when the loop never ran). -/
theorem retryableGetGo_allfail {ρ : Type} (attempts : Nat → Except AttemptError ρ)
    (e : Nat → AttemptError) :
    ∀ (fuel i : Nat) (lastE : Option AttemptError),
    (∀ j, j < fuel → attempts (i + j) = Except.error (e (i + j)) ∧
      retryableCode (e (i + j)) = true) →
    retryableGetGo attempts i lastE fuel =
      ((List.range' i fuel).flatMap
          (fun j => [RGEvent.attempt j, RGEvent.slept 2000]),
       RGResult.threw
         (match fuel with
          | 0 => lastE
          | _ + 1 => some (e (i + fuel - 1)))) := by
  intro fuel
  induction fuel with
  | zero =>
    intro i lastE _
    rfl
  | succ f ih =>
    intro i lastE hj
    have h0 := hj 0 (by omega)
    rw [Nat.add_zero] at h0
    have hrest := ih (i + 1) (some (e i))
      (by
        intro j hjf
        have := hj (j + 1) (by omega)
        rwa [show i + (j + 1) = i + 1 + j by omega] at this)
    rw [List.range'_succ]
    simp only [retryableGetGo, h0.1, h0.2, if_pos, hrest, List.flatMap_cons]
    cases f with
    | zero => simp
    | succ f2 =>
      rw [show i + 1 + (f2 + 1) - 1 = i + (f2 + 1 + 1) - 1 by omega]
      simp

/-- C4: if the first k attempts throw transient network errors
(retryable codes: connection aborted, connection reset, timeout) and
attempt k succeeds, `retryableGet` returns that success whenever
k < retries, its trace showing k failed attempts each followed by the
fixed 2000 ms backoff and then the successful attempt; if every attempt
throws a transient error, it performs exactly `retries` attempts with the
2000 ms backoff between consecutive attempts and throws the error of the
last attempt. -/
theorem c4_retry_policy {ρ : Type} (attempts : Nat → Except AttemptError ρ)
    (retries k : Nat) (e : Nat → AttemptError) (r : ρ) :
    ((∀ j, j < k → attempts j = Except.error (e j) ∧ retryableCode (e j) = true) →
     attempts k = Except.ok r →
     k < retries →
     retryableGet attempts (Int.ofNat retries) =
       ((List.range' 0 k).flatMap
           (fun j => [RGEvent.attempt j, RGEvent.slept 2000])
         ++ [RGEvent.attempt k], RGResult.ok r)) ∧
    ((∀ j, j < retries → attempts j = Except.error (e j) ∧
        retryableCode (e j) = true) →
     1 ≤ retries →
     retryableGet attempts (Int.ofNat retries) =
       ((List.range' 0 retries).flatMap
           (fun j => [RGEvent.attempt j, RGEvent.slept 2000]),
        RGResult.threw (some (e (retries - 1))))) := by
  constructor
  · intro hj hok hk
    have hred : retryableGet attempts (Int.ofNat retries) =
        retryableGetGo attempts 0 Option.none retries := rfl
    rw [hred]
    have hgo := retryableGetGo_success attempts r k 0 retries Option.none hk
      (by
        intro j hjk
        rw [Nat.zero_add]
        exact ⟨e j, (hj j hjk).1, (hj j hjk).2⟩)
      (by rw [Nat.zero_add]; exact hok)
    simpa using hgo
  · intro hj hr
    have hred : retryableGet attempts (Int.ofNat retries) =
        retryableGetGo attempts 0 Option.none retries := rfl
    rw [hred]
    have := retryableGetGo_allfail attempts e retries 0 Option.none
      (by intro j hjr; rw [Nat.zero_add]; exact hj j hjr)
    rw [this]
    obtain ⟨r2, rfl⟩ : ∃ r2, retries = r2 + 1 := ⟨retries - 1, by omega⟩
    simp

/-- Concrete attempt behavior for the C4 witness: the first attempt times
out, the second returns. -/
def attTimeoutThenOk : Nat → Except AttemptError Nat :=
  fun i =>
    if i < 1 then
      Except.error ⟨true, "ETIMEDOUT", some "timeout of 15000ms exceeded"⟩
    else Except.ok 200

/-- Concrete attempt behavior for the C4 witness: every attempt is a
connection reset. -/
def attAlwaysReset : Nat → Except AttemptError Nat :=
  fun _ => Except.error ⟨true, "ECONNRESET", some "socket hang up"⟩

/-- C4 witness: with the default 3 retries, one timeout followed by a
success returns the success after one backoff, and three straight resets
make exactly three attempts and rethrow the last reset. -/
theorem c4_retry_policy_witness :
    retryableGet attTimeoutThenOk (Int.ofNat 3) =
      ([RGEvent.attempt 0, RGEvent.slept 2000, RGEvent.attempt 1],
       RGResult.ok 200) ∧
    retryableGet attAlwaysReset (Int.ofNat 3) =
      ([RGEvent.attempt 0, RGEvent.slept 2000, RGEvent.attempt 1,
        RGEvent.slept 2000, RGEvent.attempt 2, RGEvent.slept 2000],
       RGResult.threw (some ⟨true, "ECONNRESET", some "socket hang up"⟩)) := by
  constructor
  · have h := (c4_retry_policy attTimeoutThenOk 3 1
      (fun _ => ⟨true, "ETIMEDOUT", some "timeout of 15000ms exceeded"⟩) 200).1
      (by
        intro j hj
        have hj0 : j = 0 := by omega
        rw [hj0]
        exact ⟨rfl, rfl⟩)
      rfl (by omega)
    exact h.trans (by decide)
  · have h := (c4_retry_policy attAlwaysReset 3 1
      (fun _ => ⟨true, "ECONNRESET", some "socket hang up"⟩) 0).2
      (by intro j hj; exact ⟨rfl, rfl⟩) (by omega)
    exact h.trans (by decide)

end CacheWarmer
